import Mathlib

/-!
Verification of the style-translator ingestion and retrieval pipeline.

The definitions below are a shallow embedding of the repository's Python
sources, chiefly `src/scrapers/orchestrator.py` (the
`DataPipelineOrchestrator` class), `src/embeddings/engine.py` (metadata
serialization and search-result formatting) and `src/models/clothing.py`
(the record dataclasses).  Machine floats are modelled as rationals,
Python sets as `Finset String`, and Python dicts as insertion-ordered
association lists, mirroring CPython dict semantics.  Pure in-memory
state transitions are modelled; logging and file I/O that do not change
the in-memory state are omitted.
-/

/-- Embedding of the `ClothingItem` dataclass of `src/models/clothing.py`.
`price_usd` (a Python float-or-None) is modelled as `Option ℚ`. -/
structure ClothingItem where
  id : String
  name : String
  brand : String
  category : String
  description : String
  fit : Option String
  style_tags : List String
  colors : List String
  materials : List String
  source_url : Option String
  source_type : String
  price_usd : Option ℚ
  created_at : String
  deriving DecidableEq, Repr

/-- Embedding of the `Brand` dataclass of `src/models/clothing.py`. -/
structure Brand where
  id : String
  name : String
  description : String
  aesthetics : List String
  typical_fits : List String
  price_range : String
  origin_country : Option String
  signature_items : List String
  similar_brands : List String
  source_url : Option String
  source_type : String
  created_at : String
  deriving DecidableEq, Repr

/-- Embedding of the `StyleDiscussion` dataclass of `src/models/clothing.py`. -/
structure StyleDiscussion where
  id : String
  title : String
  content : String
  mentioned_brands : List String
  mentioned_items : List String
  style_descriptors : List String
  source_url : String
  source_type : String
  subreddit : Option String
  upvotes : Int
  num_comments : Int
  created_at : String
  deriving DecidableEq, Repr

/-- Lookup in a Python-dict model (association list); `d.get(k, 0)`. -/
def dictGet (d : List (String × Nat)) (k : String) : Nat :=
  match d with
  | [] => 0
  | kv :: tl => if kv.1 = k then kv.2 else dictGet tl k

/-- Assignment `d[k] = v` on a Python-dict model: an existing key keeps its
position, a new key is appended, as in CPython insertion-ordered dicts. -/
def dictSet (d : List (String × Nat)) (k : String) (v : Nat) : List (String × Nat) :=
  match d with
  | [] => [(k, v)]
  | kv :: tl => if kv.1 = k then (kv.1, v) :: tl else kv :: dictSet tl k v

/-- Embedding of the `self.stats` dict initialised in
`DataPipelineOrchestrator.__init__` (`src/scrapers/orchestrator.py`). -/
structure Stats where
  items_scraped : Nat
  brands_discovered : Nat
  discussions_collected : Nat
  sources : List (String × Nat)
  errors : List String
  deriving DecidableEq, Repr

/-- The initial statistics of a fresh orchestrator. -/
def initStats : Stats :=
  { items_scraped := 0
    brands_discovered := 0
    discussions_collected := 0
    sources := []
    errors := [] }

/-- The mutable in-memory state of `DataPipelineOrchestrator`: the three
record collections, the two derived sets and the statistics dict. -/
structure OrchState where
  items : List ClothingItem
  brands : List Brand
  discussions : List StyleDiscussion
  discovered_brands : Finset String
  item_hashes : Finset String
  stats : Stats
  deriving DecidableEq

/-- The state set up by `DataPipelineOrchestrator.__init__` before any
checkpoint is loaded: empty collections, empty sets, initial stats. -/
def initialState : OrchState :=
  { items := []
    brands := []
    discussions := []
    discovered_brands := ∅
    item_hashes := ∅
    stats := initStats }

/-- Model of Python `str.lower()`: character-wise lower-casing.  (Python
lower-cases full Unicode; the repository's keys are ASCII, for which
`Char.toLower` agrees.) -/
def lowerStr (s : String) : String :=
  String.mk (s.data.map Char.toLower)

/-- Embedding of `DataPipelineOrchestrator._item_hash`: the dedup key is
the lower-cased string `brand|name|category`. -/
def item_hash (item : ClothingItem) : String :=
  lowerStr (item.brand ++ "|" ++ item.name ++ "|" ++ item.category)

/-- Embedding of `DataPipelineOrchestrator.add_item`.  Returns the Python
return value and the successor state.  The periodic checkpoint save inside
it does not change the in-memory state and is omitted. -/
def add_item (s : OrchState) (item : ClothingItem) : Bool × OrchState :=
  if item_hash item ∈ s.item_hashes then (false, s)
  else
    (true,
      { s with
        items := s.items ++ [item]
        item_hashes := insert (item_hash item) s.item_hashes
        discovered_brands := insert item.brand s.discovered_brands
        stats :=
          { s.stats with
            items_scraped := s.stats.items_scraped + 1
            sources :=
              dictSet s.stats.sources
                (if item.source_type = "" then "unknown" else item.source_type)
                (dictGet s.stats.sources
                  (if item.source_type = "" then "unknown" else item.source_type) + 1) } })

/-- Embedding of `DataPipelineOrchestrator.add_brand`. -/
def add_brand (s : OrchState) (b : Brand) : Bool × OrchState :=
  if b.name ∈ s.discovered_brands then (false, s)
  else
    (true,
      { s with
        brands := s.brands ++ [b]
        discovered_brands := insert b.name s.discovered_brands
        stats := { s.stats with brands_discovered := s.stats.brands_discovered + 1 } })

theorem dictGet_dictSet_self (d : List (String × Nat)) (k : String) (v : Nat) :
    dictGet (dictSet d k v) k = v := by
  induction d with
  | nil => simp [dictSet, dictGet]
  | cons hd tl ih =>
    by_cases h : hd.1 = k
    · simp [dictSet, dictGet, h]
    · simp [dictSet, dictGet, h, ih]

theorem dictGet_dictSet_other (d : List (String × Nat)) (k j : String) (v : Nat)
    (hkj : j ≠ k) : dictGet (dictSet d k v) j = dictGet d j := by
  induction d with
  | nil =>
    have hkj2 : ¬ k = j := fun hh => hkj hh.symm
    simp [dictSet, dictGet, hkj2]
  | cons hd tl ih =>
    have hkj2 : ¬ k = j := fun hh => hkj hh.symm
    by_cases h : hd.1 = k
    · simp [dictSet, dictGet, h, hkj2, ih]
    · simp [dictSet, dictGet, h, ih]

/-- C1: admitting two items with the same lower-cased `brand|name|category`
dedup key: the first `add_item` returns `true`, appends the item, inserts the
key into the seen-set and increments the per-source counter keyed by the
item's `source_type`; the second returns `false` and changes nothing, so the
collection grows by exactly one. -/
theorem add_item_dedup_idempotence (s : OrchState) (i1 i2 : ClothingItem)
    (hkey : item_hash i1 = item_hash i2)
    (hfresh : item_hash i1 ∉ s.item_hashes)
    (hsrc : i1.source_type ≠ "") :
    (add_item s i1).1 = true ∧
    (add_item s i1).2.items = s.items ++ [i1] ∧
    (add_item s i1).2.item_hashes = insert (item_hash i1) s.item_hashes ∧
    dictGet (add_item s i1).2.stats.sources i1.source_type
      = dictGet s.stats.sources i1.source_type + 1 ∧
    (add_item s i1).2.stats.items_scraped = s.stats.items_scraped + 1 ∧
    (add_item (add_item s i1).2 i2).1 = false ∧
    (add_item (add_item s i1).2 i2).2 = (add_item s i1).2 ∧
    (add_item (add_item s i1).2 i2).2.items.length = s.items.length + 1 := by
  simp [add_item, hfresh, hsrc, ← hkey, dictGet_dictSet_self, Finset.mem_insert_self]

/-- A concrete item used in witnesses and counterexamples ("Acme" tee
admitted from a scrape). -/
def itemAcme : ClothingItem :=
  { id := "item_1"
    name := "Tee"
    brand := "Acme"
    category := "shirt"
    description := "plain tee"
    fit := none
    style_tags := []
    colors := []
    materials := []
    source_url := none
    source_type := "scraped"
    price_usd := none
    created_at := "" }

/-- A second item with a different id but the same dedup key as `itemAcme`. -/
def itemAcmeDup : ClothingItem :=
  { id := "item_2"
    name := "TEE"
    brand := "acme"
    category := "Shirt"
    description := "same product, different listing"
    fit := none
    style_tags := []
    colors := []
    materials := []
    source_url := none
    source_type := "ebay"
    price_usd := none
    created_at := "" }

theorem add_item_dedup_idempotence_witness :
    item_hash itemAcme = item_hash itemAcmeDup ∧
    item_hash itemAcme ∉ initialState.item_hashes ∧
    itemAcme.source_type ≠ "" ∧
    ((add_item initialState itemAcme).1 = true ∧
     (add_item initialState itemAcme).2.items = initialState.items ++ [itemAcme] ∧
     (add_item initialState itemAcme).2.item_hashes
       = insert (item_hash itemAcme) initialState.item_hashes ∧
     dictGet (add_item initialState itemAcme).2.stats.sources itemAcme.source_type
       = dictGet initialState.stats.sources itemAcme.source_type + 1 ∧
     (add_item initialState itemAcme).2.stats.items_scraped
       = initialState.stats.items_scraped + 1 ∧
     (add_item (add_item initialState itemAcme).2 itemAcmeDup).1 = false ∧
     (add_item (add_item initialState itemAcme).2 itemAcmeDup).2
       = (add_item initialState itemAcme).2 ∧
     (add_item (add_item initialState itemAcme).2 itemAcmeDup).2.items.length
       = initialState.items.length + 1) :=
  ⟨by decide, by decide, by decide,
    add_item_dedup_idempotence initialState itemAcme itemAcmeDup
      (by decide) (by decide) (by decide)⟩

/-! ### Metadata serialization (src/embeddings/engine.py)

`_serialize_metadata` JSON-encodes list values into strings (ChromaDB only
stores scalars); `_deserialize_metadata` decodes every string value that
starts with `[` back into the parsed JSON value, keeping the string when
`json.loads` raises.  The JSON codec is the Python `json` library, an
external collaborator modelled from its documented behaviour: `loads` is
the strict JSON grammar plus the `NaN`/`Infinity`/`-Infinity` extensions —
arrays, objects, strings with the standard escapes including `\uXXXX` and
surrogate pairs, numbers (kept as their literal spelling), `true`/`false`/
`null` — and rejects unescaped control characters and trailing data;
`dumps` uses the default `", "`/`": "` separators and escapes `"`, `\` and
control characters.  Two inessential deviations: the model escapes control
characters uniformly as `\u00XX` where Python would use the short forms
`\n`, `\t`, … (the parses agree), and a `\uXXXX` escape denoting a lone
surrogate is rejected (a Lean `Char` cannot hold it; no encoder output
contains one). -/

/-- A parsed JSON document (Python `json.loads` result).  Numeric literals
are kept verbatim. -/
inductive Json where
  | null
  | boolv (b : Bool)
  | num (lit : String)
  | str (s : String)
  | arr (elems : List Json)
  | obj (fields : List (String × Json))
  deriving Repr

/-- JSON whitespace characters. -/
def json_ws (c : Char) : Bool :=
  c == ' ' || c == '\t' || c == '\n' || c == '\r'

/-- Drop leading JSON whitespace. -/
def skip_ws (l : List Char) : List Char :=
  l.dropWhile json_ws

/-- Single-character escapes accepted inside a JSON string literal. -/
def unesc_char (c : Char) : Option Char :=
  if c = '"' then some '"'
  else if c = '\\' then some '\\'
  else if c = '/' then some '/'
  else if c = 'n' then some '\n'
  else if c = 't' then some '\t'
  else if c = 'r' then some '\r'
  else if c = 'b' then some (Char.ofNat 8)
  else if c = 'f' then some (Char.ofNat 12)
  else none

/-- Value of one hexadecimal digit. -/
def hex_val (c : Char) : Option Nat :=
  if '0' ≤ c ∧ c ≤ '9' then some (c.toNat - 48)
  else if 'a' ≤ c ∧ c ≤ 'f' then some (c.toNat - 87)
  else if 'A' ≤ c ∧ c ≤ 'F' then some (c.toNat - 55)
  else none

/-- Read the four hex digits of a `\uXXXX` escape. -/
def read_u4 : List Char → Option (Nat × List Char)
  | a :: b :: c :: d :: r =>
    match hex_val a, hex_val b, hex_val c, hex_val d with
    | some x, some y, some z, some w => some (((x * 16 + y) * 16 + z) * 16 + w, r)
    | _, _, _, _ => none
  | _ => none

/-- Read the body of a JSON string literal (opening quote consumed):
escapes, `\uXXXX` with surrogate pairs, and a strict-mode rejection of
unescaped control characters.  Fuelled recursion. -/
def jread_str : Nat → List Char → Option (List Char × List Char)
  | 0, _ => none
  | _ + 1, [] => none
  | f + 1, c :: r =>
    if c = '"' then some ([], r)
    else if c = '\\' then
      match r with
      | [] => none
      | e :: r2 =>
        if e = 'u' then
          match read_u4 r2 with
          | none => none
          | some (v, r3) =>
            if v < 55296 ∨ 57343 < v then
              match jread_str f r3 with
              | some (sx, rest) => some (Char.ofNat v :: sx, rest)
              | none => none
            else if v < 56320 then
              match r3 with
              | '\\' :: 'u' :: r4 =>
                match read_u4 r4 with
                | some (w, r5) =>
                  if 56320 ≤ w ∧ w ≤ 57343 then
                    match jread_str f r5 with
                    | some (sx, rest) =>
                      some (Char.ofNat (65536 + (v - 55296) * 1024 + (w - 56320)) :: sx, rest)
                    | none => none
                  else none
                | none => none
              | _ => none
            else none
        else
          match unesc_char e, jread_str f r2 with
          | some ec, some (sx, rest) => some (ec :: sx, rest)
          | _, _ => none
    else if c.toNat < 32 then none
    else
      match jread_str f r with
      | some (sx, rest) => some (c :: sx, rest)
      | none => none

/-- Integer part of a JSON number: a single `0`, or a nonzero digit
followed by digits (leading zeros rejected). -/
def jread_int_part : List Char → Option (List Char × List Char)
  | [] => none
  | '0' :: r => some (['0'], r)
  | c :: r =>
    if c.isDigit then
      match List.span Char.isDigit r with
      | (ds, rr) => some (c :: ds, rr)
    else none

/-- Optional fraction part: a dot must be followed by at least one digit. -/
def jread_frac : List Char → Option (List Char × List Char)
  | '.' :: r =>
    match List.span Char.isDigit r with
    | ([], _) => none
    | (ds, rr) => some ('.' :: ds, rr)
  | l => some ([], l)

/-- Exponent digits after the `e`/`E` marker, with optional sign. -/
def jread_exp_tail (e : Char) (r : List Char) : Option (List Char × List Char) :=
  match r with
  | '+' :: rr =>
    match List.span Char.isDigit rr with
    | ([], _) => none
    | (ds, rr2) => some (e :: '+' :: ds, rr2)
  | '-' :: rr =>
    match List.span Char.isDigit rr with
    | ([], _) => none
    | (ds, rr2) => some (e :: '-' :: ds, rr2)
  | _ =>
    match List.span Char.isDigit r with
    | ([], _) => none
    | (ds, rr2) => some (e :: ds, rr2)

/-- Optional exponent part. -/
def jread_exp : List Char → Option (List Char × List Char)
  | 'e' :: r => jread_exp_tail 'e' r
  | 'E' :: r => jread_exp_tail 'E' r
  | l => some ([], l)

/-- A JSON number literal: optional minus, integer part, optional fraction
and exponent.  Returns the literal characters. -/
def jread_num (input : List Char) : Option (List Char × List Char) :=
  match input with
  | '-' :: r =>
    match jread_int_part r with
    | none => none
    | some (ip, r2) =>
      match jread_frac r2 with
      | none => none
      | some (fp, r3) =>
        match jread_exp r3 with
        | none => none
        | some (ep, r4) => some ('-' :: (ip ++ fp ++ ep), r4)
  | _ =>
    match jread_int_part input with
    | none => none
    | some (ip, r2) =>
      match jread_frac r2 with
      | none => none
      | some (fp, r3) =>
        match jread_exp r3 with
        | none => none
        | some (ep, r4) => some (ip ++ fp ++ ep, r4)

/-- Read the comma-separated elements of a nonempty array and the closing
bracket, given the value reader `pv`.  Fuelled recursion. -/
def jread_list (pv : List Char → Option (Json × List Char)) :
    Nat → List Char → Option (List Json × List Char)
  | 0, _ => none
  | g + 1, input =>
    match pv input with
    | none => none
    | some (j, r) =>
      match skip_ws r with
      | [] => none
      | d :: r2 =>
        if d = ']' then some ([j], r2)
        else if d = ',' then
          match jread_list pv g r2 with
          | some (js, r3) => some (j :: js, r3)
          | none => none
        else none

/-- Read the members of a nonempty object and the closing brace, given the
value reader `pv`.  Fuelled recursion. -/
def jread_members (pv : List Char → Option (Json × List Char)) :
    Nat → List Char → Option (List (String × Json) × List Char)
  | 0, _ => none
  | g + 1, input =>
    match skip_ws input with
    | [] => none
    | q :: r =>
      if q = '"' then
        match jread_str (r.length + 1) r with
        | none => none
        | some (k, r2) =>
          match skip_ws r2 with
          | [] => none
          | col :: r3 =>
            if col = ':' then
              match pv r3 with
              | none => none
              | some (j, r4) =>
                match skip_ws r4 with
                | [] => none
                | d :: r5 =>
                  if d = '\x7d' then some ([(String.mk k, j)], r5)
                  else if d = ',' then
                    match jread_members pv g r5 with
                    | some (ms, r6) => some ((String.mk k, j) :: ms, r6)
                    | none => none
                  else none
            else none
      else none

/-- Read one JSON value: string, array, object, keyword (`true`, `false`,
`null`, and the Python extensions `NaN`, `Infinity`, `-Infinity`) or
number.  Fuelled recursion over the nesting depth. -/
def jread_value : Nat → List Char → Option (Json × List Char)
  | 0, _ => none
  | f + 1, input =>
    match skip_ws input with
    | [] => none
    | c :: r =>
      if c = '"' then
        match jread_str (r.length + 1) r with
        | some (sx, rest) => some (.str (String.mk sx), rest)
        | none => none
      else if c = '[' then
        match skip_ws r with
        | [] => none
        | d :: r2 =>
          if d = ']' then some (.arr [], r2)
          else
            match jread_list (jread_value f) (r.length + 1) r with
            | some (js, rest) => some (.arr js, rest)
            | none => none
      else if c = '\x7b' then
        match skip_ws r with
        | [] => none
        | d :: r2 =>
          if d = '\x7d' then some (.obj [], r2)
          else
            match jread_members (jread_value f) (r.length + 1) r with
            | some (ms, rest) => some (.obj ms, rest)
            | none => none
      else if c = 't' then
        match r with
        | 'r' :: 'u' :: 'e' :: rest => some (.boolv true, rest)
        | _ => none
      else if c = 'f' then
        match r with
        | 'a' :: 'l' :: 's' :: 'e' :: rest => some (.boolv false, rest)
        | _ => none
      else if c = 'n' then
        match r with
        | 'u' :: 'l' :: 'l' :: rest => some (.null, rest)
        | _ => none
      else if c = 'N' then
        match r with
        | 'a' :: 'N' :: rest => some (.num "NaN", rest)
        | _ => none
      else if c = 'I' then
        match r with
        | 'n' :: 'f' :: 'i' :: 'n' :: 'i' :: 't' :: 'y' :: rest => some (.num "Infinity", rest)
        | _ => none
      else if (c == '-') || c.isDigit then
        match c, r with
        | '-', 'I' :: 'n' :: 'f' :: 'i' :: 'n' :: 'i' :: 't' :: 'y' :: rest =>
          some (.num "-Infinity", rest)
        | _, _ =>
          match jread_num (c :: r) with
          | some (lit, rest) => some (.num (String.mk lit), rest)
          | none => none
      else none

/-- Modelled from the spec: Python `json.loads` — exactly one JSON value,
optionally surrounded by whitespace; anything else raises (`none`). -/
def json_loads_any (v : String) : Option Json :=
  match jread_value (v.length + 1) v.data with
  | some (j, rest) => if skip_ws rest = [] then some j else none
  | none => none

/-- Lower-case hexadecimal digit, as Python emits in `\u00XX` escapes. -/
def hex_digit_char (n : Nat) : Char :=
  if n < 10 then Char.ofNat (48 + n) else Char.ofNat (87 + n)

/-- Modelled from the spec: escaping of one character inside a JSON string
literal as produced by `json.dumps` — quote, backslash, and control
characters (uniformly as `\u00XX`; Python prints some of them with the
short escapes, which parse identically). -/
def esc_char (c : Char) : List Char :=
  if c = '"' then ['\\', '"']
  else if c = '\\' then ['\\', '\\']
  else if c.toNat < 32 then
    ['\\', 'u', '0', '0', hex_digit_char (c.toNat / 16), hex_digit_char (c.toNat % 16)]
  else [c]

/-- Escape every character of a JSON string body. -/
def esc_chars : List Char → List Char
  | [] => []
  | c :: t => esc_char c ++ esc_chars t

/-- A JSON string literal: quote, escaped body, quote. -/
def enc_str_chars (s : String) : List Char :=
  '"' :: (esc_chars s.data ++ ['"'])

/-- The comma-space separated encodings of the array elements, matching the
`", "` item separator that `json.dumps` uses by default. -/
def sep_chars : List String → List Char
  | [] => []
  | [x] => enc_str_chars x
  | x :: y :: t => enc_str_chars x ++ ',' :: ' ' :: sep_chars (y :: t)

/-- Modelled from the spec: `json.dumps` applied to a list of strings. -/
def json_dumps_str_list (xs : List String) : String :=
  String.mk ('[' :: (sep_chars xs ++ [']']))

mutual

/-- Modelled from the spec: `json.dumps` on an arbitrary parsed value, with
the default `", "` and `": "` separators (numbers print their stored
literal). -/
def json_dumps_any : Json → List Char
  | Json.null => ['n', 'u', 'l', 'l']
  | Json.boolv true => ['t', 'r', 'u', 'e']
  | Json.boolv false => ['f', 'a', 'l', 's', 'e']
  | Json.num lit => lit.data
  | Json.str s => enc_str_chars s
  | Json.arr es => '[' :: (json_dumps_sep es ++ [']'])
  | Json.obj ms => '\x7b' :: (json_dumps_members ms ++ ['\x7d'])

/-- Comma-space separated dumps of array elements. -/
def json_dumps_sep : List Json → List Char
  | [] => []
  | [e] => json_dumps_any e
  | e :: e2 :: t => json_dumps_any e ++ ',' :: ' ' :: json_dumps_sep (e2 :: t)

/-- Comma-space separated dumps of object members. -/
def json_dumps_members : List (String × Json) → List Char
  | [] => []
  | [(k, v)] => enc_str_chars k ++ ':' :: ' ' :: json_dumps_any v
  | (k, v) :: m2 :: t =>
    enc_str_chars k ++ ':' :: ' ' :: json_dumps_any v ++ ',' :: ' ' :: json_dumps_members (m2 :: t)

end

/-- Model of Python `value.startswith('[')`. -/
def starts_lbracket (s : String) : Bool :=
  match s.data with
  | [] => false
  | c :: _ => c == '['

/-- A Python value held in a metadata dict: the scalars and list-of-string
values the record dicts carry before serialization (str, int, float, bool,
None, list of str), plus `jsonv` for a list that `json.loads` produced
inside `_deserialize_metadata` and whose elements are not all strings
(such values never occur in the dicts the program hands to
`_serialize_metadata`). -/
inductive MetaValue where
  | str (v : String)
  | intv (n : Int)
  | num (q : ℚ)
  | boolv (b : Bool)
  | null
  | listv (xs : List String)
  | jsonv (j : Json)
  deriving Repr

/-- Recover a Python list of strings from parsed array elements, when the
elements are all strings. -/
def all_strs : List Json → Option (List String)
  | [] => some []
  | Json.str s :: t =>
    match all_strs t with
    | some ss => some (s :: ss)
    | none => none
  | _ => none

/-- The Python value denoted by a `json.loads` result: an array whose
elements are all strings is a list of strings, anything else is kept as
parsed JSON. -/
def json_to_meta : Json → MetaValue
  | Json.arr es =>
    match all_strs es with
    | some ss => MetaValue.listv ss
    | none => MetaValue.jsonv (Json.arr es)
  | j => MetaValue.jsonv j

/-- Value-level action of `_serialize_metadata` (`src/embeddings/engine.py`):
Python lists (`isinstance(value, list)`) are JSON-encoded into strings,
every other value passes through. -/
def serialize_value : MetaValue → MetaValue
  | .listv xs => .str (json_dumps_str_list xs)
  | .jsonv (Json.arr es) => .str (String.mk (json_dumps_any (Json.arr es)))
  | v => v

/-- Value-level action of `_deserialize_metadata`: a string starting with
`[` is replaced by its parsed JSON value when `json.loads` succeeds,
everything else passes through. -/
def deserialize_value : MetaValue → MetaValue
  | .str v =>
    if starts_lbracket v then
      match json_loads_any v with
      | some j => json_to_meta j
      | none => .str v
    else .str v
  | v => v

/-- Embedding of `_serialize_metadata`: apply the value action to every
entry of the metadata dict. -/
def serialize_metadata (m : List (String × MetaValue)) : List (String × MetaValue) :=
  m.map (fun kv => (kv.1, serialize_value kv.2))

/-- Embedding of `_deserialize_metadata`. -/
def deserialize_metadata (m : List (String × MetaValue)) : List (String × MetaValue) :=
  m.map (fun kv => (kv.1, deserialize_value kv.2))

/-- A string-valued field is damaged by the round-trip exactly when it
starts with `[` and parses as JSON (then `_deserialize_metadata` replaces
the string by the parsed value). -/
def converted_str_field : MetaValue → Bool
  | .str v => starts_lbracket v && (json_loads_any v).isSome
  | _ => false

/-- The value kinds occurring in the dicts the program serializes (the
`to_dict` outputs): everything except the `jsonv` parse artifacts. -/
def record_value : MetaValue → Bool
  | .jsonv _ => false
  | _ => true

theorem skip_ws_cons_not (c : Char) (l : List Char) (h : json_ws c = false) :
    skip_ws (c :: l) = c :: l := by
  simp [skip_ws, List.dropWhile_cons, h]

theorem skip_ws_cons_ws (c : Char) (l : List Char) (h : json_ws c = true) :
    skip_ws (c :: l) = skip_ws l := by
  simp [skip_ws, List.dropWhile_cons, h]

theorem hex_val_digit (n : Nat) (h : n < 16) : hex_val (hex_digit_char n) = some n := by
  interval_cases n <;> rfl

theorem read_u4_ctrl (t : Nat) (h : t < 256) (r : List Char) :
    read_u4 ('0' :: '0' :: hex_digit_char (t / 16) :: hex_digit_char (t % 16) :: r)
      = some (t, r) := by
  have h1 : hex_val (hex_digit_char (t / 16)) = some (t / 16) :=
    hex_val_digit _ (by omega)
  have h2 : hex_val (hex_digit_char (t % 16)) = some (t % 16) :=
    hex_val_digit _ (by omega)
  have h0 : hex_val '0' = some 0 := rfl
  simp only [read_u4, h0, h1, h2]
  have : ((0 * 16 + 0) * 16 + t / 16) * 16 + t % 16 = t := by omega
  rw [this]

theorem jread_str_q_step (f : Nat) (r : List Char) :
    jread_str (f + 1) ('\\' :: '"' :: r)
      = (match unesc_char '"', jread_str f r with
         | some ec, some (sx, rest) => some (ec :: sx, rest)
         | _, _ => none) := rfl

theorem jread_str_b_step (f : Nat) (r : List Char) :
    jread_str (f + 1) ('\\' :: '\\' :: r)
      = (match unesc_char '\\', jread_str f r with
         | some ec, some (sx, rest) => some (ec :: sx, rest)
         | _, _ => none) := rfl

theorem jread_str_quote (r : List Char) (f : Nat) :
    jread_str (f + 1) ('"' :: r) = some ([], r) := rfl

theorem jread_str_plain_step (f : Nat) (c : Char) (r : List Char)
    (h1 : c ≠ '"') (h2 : c ≠ '\\') (h3 : ¬ c.toNat < 32) :
    jread_str (f + 1) (c :: r)
      = (match jread_str f r with
         | some (sx, rest) => some (c :: sx, rest)
         | none => none) := by
  simp only [jread_str]
  rw [if_neg h1, if_neg h2, if_neg h3]

theorem jread_str_ctrl_step (f : Nat) (c : Char) (h32 : c.toNat < 32) (r : List Char) :
    jread_str (f + 1)
        ('\\' :: 'u' :: '0' :: '0' :: hex_digit_char (c.toNat / 16)
          :: hex_digit_char (c.toNat % 16) :: r)
      = (match jread_str f r with
         | some (sx, rest) => some (c :: sx, rest)
         | none => none) := by
  have hu := read_u4_ctrl c.toNat (by omega) r
  simp only [jread_str, hu]
  rw [if_pos (Or.inl (by omega : c.toNat < 55296))]
  rw [Char.ofNat_toNat]
  rw [if_neg (show ¬ ('\\' : Char) = '"' by decide), if_pos trivial, if_pos trivial]

theorem jread_str_esc (s : List Char) :
    ∀ (fuel : Nat) (rest : List Char), (esc_chars s).length < fuel →
      jread_str fuel (esc_chars s ++ '"' :: rest) = some (s, rest) := by
  induction s with
  | nil =>
    intro fuel rest hf
    cases fuel with
    | zero => simp at hf
    | succ f =>
      simp only [esc_chars, List.nil_append]
      exact jread_str_quote rest f
  | cons c t ih =>
    intro fuel rest hf
    by_cases h1 : c = '"'
    · subst h1
      have hsh : esc_chars ('"' :: t) ++ '"' :: rest
          = '\\' :: '"' :: (esc_chars t ++ '"' :: rest) := by
        simp [esc_chars, esc_char]
      cases fuel with
      | zero => simp at hf
      | succ f =>
        rw [hsh, jread_str_q_step, ih f rest (by
          have hlen : (esc_chars ('"' :: t)).length = 2 + (esc_chars t).length := by
            simp [esc_chars, esc_char]
            omega
          omega)]
        rfl
    · by_cases h2 : c = '\\'
      · subst h2
        have hsh : esc_chars ('\\' :: t) ++ '"' :: rest
            = '\\' :: '\\' :: (esc_chars t ++ '"' :: rest) := by
          simp [esc_chars, esc_char]
        cases fuel with
        | zero => simp at hf
        | succ f =>
          rw [hsh, jread_str_b_step, ih f rest (by
            have hlen : (esc_chars ('\\' :: t)).length = 2 + (esc_chars t).length := by
              simp [esc_chars, esc_char]
              omega
            omega)]
          rfl
      · by_cases h3 : c.toNat < 32
        · have he : esc_char c
              = ['\\', 'u', '0', '0', hex_digit_char (c.toNat / 16),
                 hex_digit_char (c.toNat % 16)] := by
            unfold esc_char
            rw [if_neg h1, if_neg h2, if_pos h3]
          have hsh : esc_chars (c :: t) ++ '"' :: rest
              = '\\' :: 'u' :: '0' :: '0' :: hex_digit_char (c.toNat / 16)
                :: hex_digit_char (c.toNat % 16) :: (esc_chars t ++ '"' :: rest) := by
            simp [esc_chars, he]
          cases fuel with
          | zero => simp at hf
          | succ f =>
            rw [hsh, jread_str_ctrl_step f c h3, ih f rest (by
              have hlen : (esc_chars (c :: t)).length = 6 + (esc_chars t).length := by
                simp [esc_chars, he]
                omega
              omega)]
        · have he : esc_char c = [c] := by
            unfold esc_char
            rw [if_neg h1, if_neg h2, if_neg h3]
          have hsh : esc_chars (c :: t) ++ '"' :: rest
              = c :: (esc_chars t ++ '"' :: rest) := by
            simp [esc_chars, he]
          cases fuel with
          | zero => simp at hf
          | succ f =>
            rw [hsh, jread_str_plain_step f c _ h1 h2 h3, ih f rest (by
              have hlen : (esc_chars (c :: t)).length = 1 + (esc_chars t).length := by
                simp [esc_chars, he]
                omega
              omega)]

theorem sep_len (xs : List String) : xs.length ≤ (sep_chars xs).length := by
  induction xs with
  | nil => simp [sep_chars]
  | cons x t ih =>
    cases t with
    | nil => simp [sep_chars, enc_str_chars]
    | cons y t2 =>
      simp only [sep_chars, enc_str_chars, List.length_append, List.length_cons] at ih ⊢
      omega

theorem jread_value_skip (f : Nat) (c : Char) (l : List Char) (h : json_ws c = true) :
    jread_value (f + 1) (c :: l) = jread_value (f + 1) l := by
  simp only [jread_value]
  rw [skip_ws_cons_ws c l h]

theorem jread_value_enc (f : Nat) (x : String) (rest : List Char) :
    jread_value (f + 1) (enc_str_chars x ++ rest) = some (Json.str x, rest) := by
  have hsh : enc_str_chars x ++ rest = '"' :: (esc_chars x.data ++ '"' :: rest) := by
    simp [enc_str_chars]
  rw [hsh]
  have hs := jread_str_esc x.data ((esc_chars x.data ++ '"' :: rest).length + 1) rest
    (by simp only [List.length_append, List.length_cons]; omega)
  simp only [jread_value]
  rw [skip_ws_cons_not '"' _ (by decide)]
  simp only [hs]
  rw [if_pos trivial]

theorem jread_list_skip (f g : Nat) (l : List Char) :
    jread_list (jread_value (f + 1)) (g + 1) (' ' :: l)
      = jread_list (jread_value (f + 1)) (g + 1) l := by
  simp only [jread_list]
  rw [jread_value_skip f ' ' l (by decide)]

theorem jread_value_arr_step (f : Nat) (l : List Char) (d : Char) (r2 : List Char)
    (hsw : skip_ws l = d :: r2) (hd : ¬ d = ']') :
    jread_value (f + 1) ('[' :: l)
      = match jread_list (jread_value f) (l.length + 1) l with
        | some (js, rest) => some (Json.arr js, rest)
        | none => none := by
  have h0 : skip_ws ('[' :: l) = '[' :: l := skip_ws_cons_not _ _ (by decide)
  simp only [jread_value, h0]
  rw [if_pos trivial]
  simp only [hsw]
  rw [if_neg hd]
  rw [if_neg (show ¬('[' : Char) = '"' by decide)]

theorem jread_list_sep (f : Nat) (xs : List String) :
    ∀ (g : Nat) (rest : List Char), xs ≠ [] → xs.length ≤ g →
      jread_list (jread_value (f + 1)) g (sep_chars xs ++ ']' :: rest)
        = some (xs.map Json.str, rest) := by
  induction xs with
  | nil => intro g rest h _; exact absurd rfl h
  | cons x t ih =>
    intro g rest _ hlen
    cases g with
    | zero => simp at hlen
    | succ g0 =>
      cases t with
      | nil =>
        have hsh : sep_chars [x] ++ ']' :: rest = enc_str_chars x ++ ']' :: rest := by
          simp [sep_chars]
        rw [hsh]
        have he := jread_value_enc f x (']' :: rest)
        have h1 : skip_ws (']' :: rest) = ']' :: rest := skip_ws_cons_not _ _ (by decide)
        simp only [jread_list, he, h1]
        simp
      | cons y t2 =>
        have hsh : sep_chars (x :: y :: t2) ++ ']' :: rest
            = enc_str_chars x ++ ',' :: ' ' :: (sep_chars (y :: t2) ++ ']' :: rest) := by
          simp [sep_chars]
        rw [hsh]
        have he := jread_value_enc f x (',' :: ' ' :: (sep_chars (y :: t2) ++ ']' :: rest))
        have h1 : skip_ws (',' :: ' ' :: (sep_chars (y :: t2) ++ ']' :: rest))
            = ',' :: ' ' :: (sep_chars (y :: t2) ++ ']' :: rest) :=
          skip_ws_cons_not _ _ (by decide)
        simp only [jread_list, he, h1]
        rw [if_pos trivial]
        obtain ⟨g1, rfl⟩ : ∃ g1, g0 = g1 + 1 :=
          ⟨g0 - 1, by simp only [List.length_cons] at hlen; omega⟩
        rw [jread_list_skip f g1 _]
        rw [ih (g1 + 1) rest (by simp) (by
          simp only [List.length_cons] at hlen ⊢
          omega)]
        simp

theorem json_loads_any_dumps (xs : List String) :
    json_loads_any (json_dumps_str_list xs) = some (Json.arr (xs.map Json.str)) := by
  cases xs with
  | nil => rfl
  | cons x t =>
    have hhead : ∃ L, sep_chars (x :: t) ++ [']'] = '"' :: L := by
      cases t with
      | nil =>
        exact ⟨esc_chars x.data ++ ['"', ']'], by simp [sep_chars, enc_str_chars]⟩
      | cons y t2 =>
        exact ⟨esc_chars x.data ++ '"' :: ',' :: ' ' :: (sep_chars (y :: t2) ++ [']']),
          by simp [sep_chars, enc_str_chars]⟩
    obtain ⟨L, hL⟩ := hhead
    have hdata : (json_dumps_str_list (x :: t)).data
        = '[' :: (sep_chars (x :: t) ++ [']']) := rfl
    have hlen0 : (json_dumps_str_list (x :: t)).length
        = (sep_chars (x :: t) ++ [']']).length + 1 := by
      simp [json_dumps_str_list, String.length]
    have hsw : skip_ws (sep_chars (x :: t) ++ [']'])
        = '"' :: L := by
      rw [hL]
      exact skip_ws_cons_not _ _ (by decide)
    have hglen : (x :: t).length ≤ (sep_chars (x :: t) ++ [']']).length + 1 := by
      have h1 := sep_len (x :: t)
      have h2 : (sep_chars (x :: t) ++ [']']).length = (sep_chars (x :: t)).length + 1 := by
        simp
      omega
    simp only [json_loads_any, hdata, hlen0]
    rw [jread_value_arr_step ((sep_chars (x :: t) ++ [']']).length + 1)
      (sep_chars (x :: t) ++ [']']) '"' L hsw (by decide)]
    have hls := jread_list_sep ((sep_chars (x :: t) ++ [']']).length) (x :: t)
      ((sep_chars (x :: t) ++ [']']).length + 1) [] (by simp) hglen
    simp only [hls]
    simp [skip_ws]

theorem starts_lbracket_dumps (xs : List String) :
    starts_lbracket (json_dumps_str_list xs) = true := rfl

theorem all_strs_map_str (xs : List String) : all_strs (xs.map Json.str) = some xs := by
  induction xs with
  | nil => rfl
  | cons x t ih => simp [all_strs, ih]

theorem json_to_meta_ne_str (j : Json) (s : String) : json_to_meta j ≠ MetaValue.str s := by
  cases j with
  | arr es =>
    simp only [json_to_meta]
    cases h : all_strs es <;> simp
  | null => simp [json_to_meta]
  | boolv b => simp [json_to_meta]
  | num l => simp [json_to_meta]
  | str t => simp [json_to_meta]
  | obj ms => simp [json_to_meta]

theorem roundtrip_value_list (xs : List String) :
    deserialize_value (serialize_value (MetaValue.listv xs)) = MetaValue.listv xs := by
  simp [serialize_value, deserialize_value, starts_lbracket_dumps xs,
    json_loads_any_dumps xs, json_to_meta, all_strs_map_str xs]

/-- C8: for every metadata dict and every list-valued field in it, the
value is reproduced exactly — element order included — by serializing the
dict for the vector store and deserializing it again. -/
theorem metadata_list_roundtrip (m : List (String × MetaValue)) (k : String)
    (xs : List String) (hmem : (k, MetaValue.listv xs) ∈ m) :
    deserialize_value (serialize_value (MetaValue.listv xs)) = MetaValue.listv xs ∧
    (k, MetaValue.listv xs) ∈ deserialize_metadata (serialize_metadata m) := by
  refine ⟨roundtrip_value_list xs, ?_⟩
  unfold serialize_metadata deserialize_metadata
  rw [List.map_map]
  refine List.mem_map.mpr ⟨(k, MetaValue.listv xs), hmem, ?_⟩
  simp [Function.comp, roundtrip_value_list xs]

/-- A representative serialized item-metadata dict. -/
def exampleMetadata : List (String × MetaValue) :=
  [("id", MetaValue.str "item_1"),
   ("colors", MetaValue.listv ["olive", "ecru"]),
   ("materials", MetaValue.listv ["cotton"]),
   ("price_usd", MetaValue.num 120),
   ("fit", MetaValue.null)]

theorem metadata_list_roundtrip_witness :
    (("colors", MetaValue.listv ["olive", "ecru"]) ∈ exampleMetadata) ∧
    (deserialize_value (serialize_value (MetaValue.listv ["olive", "ecru"]))
        = MetaValue.listv ["olive", "ecru"] ∧
     ("colors", MetaValue.listv ["olive", "ecru"])
        ∈ deserialize_metadata (serialize_metadata exampleMetadata)) :=
  ⟨by simp [exampleMetadata],
   metadata_list_roundtrip exampleMetadata "colors" ["olive", "ecru"]
     (by simp [exampleMetadata])⟩

theorem roundtrip_value_eq_iff (v : MetaValue) (hv : record_value v = true) :
    (deserialize_value (serialize_value v) = v) ↔ converted_str_field v = false := by
  cases v with
  | str s =>
    simp only [serialize_value, deserialize_value, converted_str_field]
    cases hb : starts_lbracket s with
    | false => simp [hb]
    | true =>
      cases hp : json_loads_any s with
      | none => simp [hb, hp]
      | some j => simp [hb, hp, json_to_meta_ne_str j s]
  | listv xs => simp [converted_str_field, roundtrip_value_list xs]
  | intv n => simp [serialize_value, deserialize_value, converted_str_field]
  | num q => simp [serialize_value, deserialize_value, converted_str_field]
  | boolv b => simp [serialize_value, deserialize_value, converted_str_field]
  | null => simp [serialize_value, deserialize_value, converted_str_field]
  | jsonv j => simp [record_value] at hv

theorem list_map_fix_iff {α : Type} (f : α → α) (l : List α) :
    l.map f = l ↔ ∀ a ∈ l, f a = a := by
  induction l with
  | nil => simp
  | cons x t ih => simp [ih]

/-- C10: on a metadata dict carrying the value kinds the program's record
dicts contain, deserializing after serializing is the identity exactly when
no string-valued field both starts with `[` and parses as JSON; e.g. the
string value `["sale"] jacket` survives the round-trip while the string
value `["sale"]` comes back as the list `["sale"]`. -/
theorem metadata_roundtrip_identity_iff (m : List (String × MetaValue))
    (hm : ∀ kv ∈ m, record_value (Prod.snd kv) = true) :
    (deserialize_metadata (serialize_metadata m) = m ↔
      ∀ kv ∈ m, converted_str_field (Prod.snd kv) = false) ∧
    deserialize_value (serialize_value (MetaValue.str "[\"sale\"] jacket"))
      = MetaValue.str "[\"sale\"] jacket" ∧
    deserialize_value (serialize_value (MetaValue.str "[\"sale\"]"))
      = MetaValue.listv ["sale"] := by
  refine ⟨?_, rfl, rfl⟩
  unfold serialize_metadata deserialize_metadata
  rw [List.map_map, list_map_fix_iff]
  refine ⟨fun h kv hkv => ?_, fun h kv hkv => ?_⟩
  · have h2 : deserialize_value (serialize_value kv.2) = kv.2 :=
      congrArg Prod.snd (h kv hkv)
    exact (roundtrip_value_eq_iff kv.2 (hm kv hkv)).mp h2
  · have h3 := (roundtrip_value_eq_iff kv.2 (hm kv hkv)).mpr (h kv hkv)
    show ((fun x => (x.1, deserialize_value x.2)) ∘ fun x => (x.1, serialize_value x.2)) kv = kv
    simp [Function.comp, h3]

theorem metadata_roundtrip_identity_iff_witness :
    (∀ kv ∈ exampleMetadata, record_value (Prod.snd kv) = true) ∧
    deserialize_metadata (serialize_metadata exampleMetadata) = exampleMetadata :=
  ⟨by decide,
   ((metadata_roundtrip_identity_iff exampleMetadata (by decide)).1).mpr (by decide)⟩

/-! ### Search-result formatting (src/embeddings/engine.py)

`search_items`, `search_brands` and `search_discussions` each receive raw
hits (id, document, metadata, distance) from the vector index and format
them identically: similarity `1 / (1 + d)` rounded to three decimals via
Python `round`, and deserialized metadata.  `round` uses banker's rounding
(round half to even), modelled exactly on rationals. -/

/-- Modelled from the spec: round half to even, as Python `round` does on
exactly representable values. -/
def round_half_even (q : ℚ) : ℤ :=
  if q - ⌊q⌋ < 1 / 2 then ⌊q⌋
  else if 1 / 2 < q - ⌊q⌋ then ⌊q⌋ + 1
  else if Even ⌊q⌋ then ⌊q⌋ else ⌊q⌋ + 1

/-- Python `round(q, 3)`. -/
def round3 (q : ℚ) : ℚ :=
  (round_half_even (1000 * q) : ℚ) / 1000

/-- The distance-to-similarity conversion `1 / (1 + d)` shared by all three
search methods. -/
def similarity_of (d : ℚ) : ℚ := 1 / (1 + d)

/-- A raw nearest-neighbour hit as returned by the vector index. -/
structure QueryHit where
  id : String
  document : String
  metadata : List (String × MetaValue)
  distance : ℚ

/-- One formatted entry of the list returned by the search methods. -/
structure SearchResult where
  id : String
  metadata : List (String × MetaValue)
  similarity : ℚ
  matched_text : String

/-- The per-hit formatting step shared verbatim by `search_items`,
`search_brands` and `search_discussions`. -/
def format_hit (h : QueryHit) : SearchResult :=
  { id := h.id
    metadata := deserialize_metadata h.metadata
    similarity := round3 (similarity_of h.distance)
    matched_text := h.document }

/-- Embedding of the result-formatting loop of `search_items`. -/
def search_items (hits : List QueryHit) : List SearchResult :=
  hits.map format_hit

/-- Embedding of the result-formatting loop of `search_brands`. -/
def search_brands (hits : List QueryHit) : List SearchResult :=
  hits.map format_hit

/-- Embedding of the result-formatting loop of `search_discussions`. -/
def search_discussions (hits : List QueryHit) : List SearchResult :=
  hits.map format_hit

theorem rhe_ge_floor (q : ℚ) : ⌊q⌋ ≤ round_half_even q := by
  unfold round_half_even
  split_ifs <;> omega

theorem rhe_le_floor_add_one (q : ℚ) : round_half_even q ≤ ⌊q⌋ + 1 := by
  unfold round_half_even
  split_ifs <;> omega

theorem round_half_even_mono (a b : ℚ) (h : a ≤ b) :
    round_half_even a ≤ round_half_even b := by
  have hf : ⌊a⌋ ≤ ⌊b⌋ := Int.floor_le_floor h
  rcases lt_or_eq_of_le hf with hlt | heq
  · have ha := rhe_le_floor_add_one a
    have hb := rhe_ge_floor b
    omega
  · have hr : a - (⌊a⌋ : ℚ) ≤ b - (⌊a⌋ : ℚ) := by linarith
    unfold round_half_even
    rw [← heq]
    split_ifs <;> first | omega | (exfalso; linarith)

theorem round3_mono (a b : ℚ) (h : a ≤ b) : round3 a ≤ round3 b := by
  unfold round3
  have hm := round_half_even_mono (1000 * a) (1000 * b) (by linarith)
  have hc : ((round_half_even (1000 * a) : ℤ) : ℚ)
      ≤ ((round_half_even (1000 * b) : ℤ) : ℚ) := by exact_mod_cast hm
  linarith

theorem similarity_of_strict_anti (d1 d2 : ℚ) (h1 : 0 ≤ d1) (h12 : d1 < d2) :
    similarity_of d2 < similarity_of d1 := by
  unfold similarity_of
  have ha : 0 < 1 + d1 := by linarith
  have hb : 1 + d1 < 1 + d2 := by linarith
  exact one_div_lt_one_div_of_lt ha hb

theorem similarity_of_pos (d : ℚ) (h : 0 ≤ d) : 0 < similarity_of d := by
  unfold similarity_of
  positivity

theorem similarity_of_le_one (d : ℚ) (h : 0 ≤ d) : similarity_of d ≤ 1 := by
  unfold similarity_of
  rw [div_le_one (by linarith)]
  linarith

theorem similarity_of_eq_one_iff (d : ℚ) (h : 0 ≤ d) :
    similarity_of d = 1 ↔ d = 0 := by
  unfold similarity_of
  rw [div_eq_one_iff_eq (by linarith : (1 : ℚ) + d ≠ 0)]
  constructor <;> intro hh <;> linarith

/-- A zero-distance hit. -/
def hitZero : QueryHit :=
  { id := "a", document := "doc a", metadata := [], distance := 0 }

/-- A hit at the small positive distance 1/10000. -/
def hitNear : QueryHit :=
  { id := "b", document := "doc b", metadata := [], distance := 1 / 10000 }

/-- C7 counterexample: the similarities actually returned are rounded to
three decimals, so for distances 0 < 1/10000 both results carry similarity
exactly 1.0 — the returned scores are not strictly decreasing and 1.0 is
attained at a non-zero distance, refuting the claim as stated. -/
theorem similarity_rounding_counterexample :
    hitZero.distance < hitNear.distance ∧
    (search_items [hitZero, hitNear]).map SearchResult.similarity = [1, 1] ∧
    hitNear.distance ≠ 0 := by
  have e1 : similarity_of hitZero.distance = 1 := by
    norm_num [similarity_of, hitZero]
  have e2 : similarity_of hitNear.distance = 10000 / 10001 := by
    norm_num [similarity_of, hitNear]
  have f1 : round3 1 = 1 := by
    unfold round3 round_half_even
    have hfl : ⌊(1000 * 1 : ℚ)⌋ = 1000 := by
      rw [Int.floor_eq_iff]
      constructor <;> norm_num
    rw [hfl]
    norm_num
  have f2 : round3 (10000 / 10001) = 1 := by
    unfold round3 round_half_even
    have hfl : ⌊(1000 * (10000 / 10001) : ℚ)⌋ = 999 := by
      rw [Int.floor_eq_iff]
      constructor <;> norm_num
    rw [hfl]
    norm_num
  refine ⟨by norm_num [hitZero, hitNear], ?_, by norm_num [hitNear]⟩
  simp [search_items, format_hit, e1, e2, f1, f2]

/-- C7 amended: every result of the three search methods carries
similarity `round3 (1 / (1 + d))`, computed by one identical conversion in
all three; the unrounded conversion is strictly decreasing in distance,
lies in (0, 1] and equals 1 exactly at distance 0; after the 3-decimal
rounding the returned scores are non-increasing in distance (strictness
and "1.0 only at d = 0" hold only before rounding). -/
theorem similarity_transform_amended (d d1 d2 : ℚ)
    (hd : 0 ≤ d) (h1 : 0 ≤ d1) (h12 : d1 < d2) :
    (∀ hits : List QueryHit,
        (search_items hits).map SearchResult.similarity
          = hits.map (fun h => round3 (similarity_of h.distance)) ∧
        search_brands hits = search_items hits ∧
        search_discussions hits = search_items hits) ∧
    similarity_of d2 < similarity_of d1 ∧
    0 < similarity_of d ∧
    similarity_of d ≤ 1 ∧
    (similarity_of d = 1 ↔ d = 0) ∧
    round3 (similarity_of d2) ≤ round3 (similarity_of d1) := by
  refine ⟨fun hits => ⟨?_, rfl, rfl⟩,
    similarity_of_strict_anti d1 d2 h1 h12,
    similarity_of_pos d hd,
    similarity_of_le_one d hd,
    similarity_of_eq_one_iff d hd,
    round3_mono _ _ (le_of_lt (similarity_of_strict_anti d1 d2 h1 h12))⟩
  simp [search_items, format_hit]

theorem similarity_transform_amended_witness :
    ((0 : ℚ) ≤ 0) ∧ ((0 : ℚ) < 1) ∧
    ((∀ hits : List QueryHit,
        (search_items hits).map SearchResult.similarity
          = hits.map (fun h => round3 (similarity_of h.distance)) ∧
        search_brands hits = search_items hits ∧
        search_discussions hits = search_items hits) ∧
     similarity_of 1 < similarity_of 0 ∧
     0 < similarity_of 0 ∧
     similarity_of 0 ≤ 1 ∧
     (similarity_of 0 = 1 ↔ (0 : ℚ) = 0) ∧
     round3 (similarity_of 1) ≤ round3 (similarity_of 0)) :=
  ⟨le_rfl, by norm_num,
   similarity_transform_amended 0 0 1 le_rfl le_rfl (by norm_num)⟩

/-! ### Checkpoint store (src/scrapers/orchestrator.py)

`_load_checkpoint` reads `checkpoint.json`, reconstructs the three
collections via `from_dict`, takes `stats` from the document, rebuilds
`item_hashes` from the loaded items and adds the loaded brands' names to
`discovered_brands`; the whole body is wrapped in `try/except Exception`,
so any failure leaves the state as assigned so far.  A raw record that
`from_dict` would raise on is modelled as `none`; a file whose JSON parse
fails is modelled as `some none`; a missing file as `none`. -/

/-- The parsed content of a readable checkpoint document: the raw record
lists (each entry `none` when `from_dict` raises on it) and the optional
`stats` entry (`data.get('stats', ...)`). -/
structure RawCheckpoint where
  items : List (Option ClothingItem)
  brands : List (Option Brand)
  discussions : List (Option StyleDiscussion)
  stats : Option Stats
  deriving DecidableEq

/-- Evaluate a Python list comprehension over fallible conversions: the
whole list materialises, or the first raising element aborts it. -/
def seq_opts {α : Type} : List (Option α) → Option (List α)
  | [] => some []
  | none :: _ => none
  | some a :: t =>
    match seq_opts t with
    | some l => some (a :: l)
    | none => none

/-- Embedding of `DataPipelineOrchestrator._load_checkpoint`: sequential
assignments inside `try`, each failure caught — the collections assigned
before the failing statement keep their values, everything after stays
untouched (in particular the derived sets are only rebuilt when all three
collections reconstructed). -/
def load_checkpoint (file : Option (Option RawCheckpoint)) (s : OrchState) : OrchState :=
  match file with
  | none => s
  | some none => s
  | some (some raw) =>
    match seq_opts raw.items with
    | none => s
    | some its =>
      let s1 := { s with items := its }
      match seq_opts raw.brands with
      | none => s1
      | some brs =>
        let s2 := { s1 with brands := brs }
        match seq_opts raw.discussions with
        | none => s2
        | some dis =>
          let s3 := { s2 with discussions := dis }
          let s4 := { s3 with stats := raw.stats.getD s3.stats }
          { s4 with
            item_hashes := its.foldl (fun acc i => insert (item_hash i) acc) s4.item_hashes
            discovered_brands := brs.foldl (fun acc b => insert b.name acc) s4.discovered_brands }

/-- Embedding of `DataPipelineOrchestrator.__init__`: fresh state, then
checkpoint load. -/
def orchestrator_init (file : Option (Option RawCheckpoint)) : OrchState :=
  load_checkpoint file initialState

theorem foldl_insert_toFinset {α : Type} (l : List α) (f : α → String) (acc : Finset String) :
    l.foldl (fun a x => insert (f x) a) acc = acc ∪ (l.map f).toFinset := by
  induction l generalizing acc with
  | nil => simp
  | cons x t ih =>
    simp only [List.foldl_cons, List.map_cons, List.toFinset_cons, ih]
    simp [Finset.insert_union, Finset.union_insert]

/-- C4 counterexample: a checkpoint holding one item of brand "Acme" and no
brand records loads with `discovered_brands` empty — the brand names
occurring in the loaded items are not added on load, contradicting the
claim that every item brand is in the rebuilt set. -/
theorem load_rebuild_counterexample :
    (orchestrator_init (some (some ⟨[some itemAcme], [], [], none⟩))).items.map
        ClothingItem.brand = ["Acme"] ∧
    "Acme" ∉ (orchestrator_init (some (some ⟨[some itemAcme], [], [], none⟩))).discovered_brands := by
  constructor
  · rfl
  · decide

/-- C4 amended: after a fully parseable checkpoint loads, `item_hashes` is
exactly the set of dedup keys of the loaded items, and `discovered_brands`
is exactly the set of names of the loaded brand records (item brands are
not included); both are rebuilt by iterating the loaded collections — the
persisted document carries no derived-set blob at all. -/
theorem load_rebuild_amended (raw : RawCheckpoint) (its : List ClothingItem)
    (brs : List Brand) (dis : List StyleDiscussion)
    (hi : seq_opts raw.items = some its) (hb : seq_opts raw.brands = some brs)
    (hd : seq_opts raw.discussions = some dis) :
    (orchestrator_init (some (some raw))).items = its ∧
    (orchestrator_init (some (some raw))).brands = brs ∧
    (orchestrator_init (some (some raw))).discussions = dis ∧
    (orchestrator_init (some (some raw))).item_hashes = (its.map item_hash).toFinset ∧
    (orchestrator_init (some (some raw))).discovered_brands = (brs.map Brand.name).toFinset := by
  refine ⟨?_, ?_, ?_, ?_, ?_⟩
  · simp [orchestrator_init, load_checkpoint, hi, hb, hd]
  · simp [orchestrator_init, load_checkpoint, hi, hb, hd]
  · simp [orchestrator_init, load_checkpoint, hi, hb, hd]
  · simp only [orchestrator_init, load_checkpoint, hi, hb, hd]
    rw [foldl_insert_toFinset]
    simp [initialState]
  · simp only [orchestrator_init, load_checkpoint, hi, hb, hd]
    rw [foldl_insert_toFinset]
    simp [initialState]

/-- A curated brand record used in load witnesses. -/
def brandCurated : Brand :=
  { id := "brand_orslow"
    name := "Orslow"
    description := "Japanese workwear reproductions"
    aesthetics := ["workwear"]
    typical_fits := ["relaxed"]
    price_range := "premium"
    origin_country := some "Japan"
    signature_items := ["fatigue pants"]
    similar_brands := []
    source_url := none
    source_type := "manual"
    created_at := "" }

/-- A fully parseable one-item one-brand checkpoint. -/
def rawGood : RawCheckpoint :=
  ⟨[some itemAcme], [some brandCurated], [], none⟩

theorem load_rebuild_amended_witness :
    (seq_opts rawGood.items = some [itemAcme] ∧
     seq_opts rawGood.brands = some [brandCurated] ∧
     seq_opts rawGood.discussions = some ([] : List StyleDiscussion)) ∧
    ((orchestrator_init (some (some rawGood))).items = [itemAcme] ∧
     (orchestrator_init (some (some rawGood))).brands = [brandCurated] ∧
     (orchestrator_init (some (some rawGood))).discussions = ([] : List StyleDiscussion) ∧
     (orchestrator_init (some (some rawGood))).item_hashes
       = ([itemAcme].map item_hash).toFinset ∧
     (orchestrator_init (some (some rawGood))).discovered_brands
       = ([brandCurated].map Brand.name).toFinset) :=
  ⟨⟨rfl, rfl, rfl⟩,
   load_rebuild_amended rawGood [itemAcme] [brandCurated] [] rfl rfl rfl⟩

/-- C9 counterexample: a checkpoint whose items parse but whose brands list
contains one malformed record loads with the items collection non-empty —
the constructor completes, but not with empty collections as claimed. -/
theorem load_partial_failure_counterexample :
    (orchestrator_init (some (some ⟨[some itemAcme], [none], [], none⟩))).items
      = [itemAcme] ∧
    (orchestrator_init (some (some ⟨[some itemAcme], [none], [], none⟩))).items ≠ [] := by
  constructor
  · rfl
  · decide

/-- C9 amended: a corrupt checkpoint never aborts startup — the exception
is caught.  If the file is missing, unreadable or not JSON, or its items
fail to reconstruct, the state is the fresh initial state; if
reconstruction fails at the brands (resp. discussions), the collections
assigned before that point keep their loaded values, the rest stay empty
and the stats stay initial (and the derived sets are not rebuilt). -/
theorem load_corrupt_checkpoint_amended (raw : RawCheckpoint) :
    orchestrator_init none = initialState ∧
    orchestrator_init (some none) = initialState ∧
    (seq_opts raw.items = none → orchestrator_init (some (some raw)) = initialState) ∧
    (∀ its, seq_opts raw.items = some its → seq_opts raw.brands = none →
      orchestrator_init (some (some raw)) = { initialState with items := its }) ∧
    (∀ its brs, seq_opts raw.items = some its → seq_opts raw.brands = some brs →
      seq_opts raw.discussions = none →
      orchestrator_init (some (some raw)) = { initialState with items := its, brands := brs }) := by
  refine ⟨rfl, rfl, ?_, ?_, ?_⟩
  · intro h
    simp [orchestrator_init, load_checkpoint, h]
  · intro its hi hb
    simp [orchestrator_init, load_checkpoint, hi, hb]
  · intro its brs hi hb hd
    simp [orchestrator_init, load_checkpoint, hi, hb, hd]

theorem load_corrupt_checkpoint_amended_witness :
    orchestrator_init (some (some ⟨[none], [], [], none⟩)) = initialState :=
  (load_corrupt_checkpoint_amended ⟨[none], [], [], none⟩).2.2.1 rfl

/-! ### Checkpoint save (src/scrapers/orchestrator.py)

`_save_checkpoint` serialises the state and writes it with
`open(checkpoint_file, 'w')` followed by `json.dump(data, f)` — directly
to the final path, with no temporary file and no rename.  Opening with
mode `w` truncates the file, and the dump then streams the document, so
the observable on-disk contents during a save are the empty string
followed by each prefix of the payload. -/

/-- Every on-disk content of `checkpoint.json` observable if the process
crashes at some point during `_save_checkpoint`: the truncated (empty)
file, then each prefix of the streamed JSON payload. -/
def save_file_states (payload : String) : List String :=
  (List.range (payload.length + 1)).map (fun n => String.mk (payload.data.take n))

/-- Modelled from the spec: a necessary condition for Python `json.load`
to accept a document — it must contain at least one non-whitespace
character (an empty or all-whitespace document raises `Expecting value`). -/
def json_doc_nonempty (s : String) : Bool :=
  s.data.any (fun c => !(json_ws c))

/-- C3 counterexample: during a save of a representative checkpoint
payload the file passes through the empty-string state (right after the
truncating open), and the empty document fails the JSON parse — so a crash
at that point leaves a checkpoint that `load()` cannot parse, refuting
all-or-nothing save.  No temporary-path-and-rename is involved anywhere in
`_save_checkpoint`. -/
theorem save_checkpoint_counterexample :
    "" ∈ save_file_states
      "\x7b\"items\": [], \"brands\": [], \"discussions\": [], \"stats\": \x7b\x7d\x7d" ∧
    json_doc_nonempty "" = false := by
  constructor
  · decide
  · rfl

/-- C3 amended: `_save_checkpoint` writes the JSON document directly to
the final path; the first observable file state during any save is the
empty string — which no JSON parse accepts — so the save is not atomic and
a crash mid-save can leave an unparseable checkpoint. -/
theorem save_checkpoint_amended (payload : String) :
    (save_file_states payload).head? = some "" ∧
    "" ∈ save_file_states payload ∧
    json_doc_nonempty "" = false := by
  refine ⟨?_, ?_, rfl⟩
  · unfold save_file_states
    rw [List.range_succ_eq_map]
    rfl
  · unfold save_file_states
    exact List.mem_map.mpr ⟨0, List.mem_range.mpr (Nat.succ_pos _), rfl⟩

/-! ### Brand profile synthesis (src/scrapers/orchestrator.py)

`build_brand_profiles` groups items by brand (insertion order), skips brand
names already present in the brand collection, aggregates the group and
calls `add_brand` on the synthesized record.  Python `set` aggregates are
modelled as insertion-ordered dedup lists (Python set iteration order is
unspecified; none of the claims depends on it).  The aggregated colour and
material sets are computed by the code but never placed in the Brand,
so they are not modelled.  The truthiness tests `if item.fit:` and
`if item.price_usd:` exclude empty strings and zero prices, not just None. -/

/-- Add an element to an insertion-ordered set model. -/
def dedup_append (l : List String) (x : String) : List String :=
  if x ∈ l then l else l ++ [x]

/-- The `brand_items` grouping dict of `build_brand_profiles`. -/
def group_by_brand (items : List ClothingItem) : List (String × List ClothingItem) :=
  items.foldl
    (fun acc i =>
      if acc.any (fun kv => kv.1 == i.brand) then
        acc.map (fun kv => if kv.1 == i.brand then (kv.1, kv.2 ++ [i]) else kv)
      else acc ++ [(i.brand, [i])])
    []

/-- The `all_categories` aggregate. -/
def agg_categories (items : List ClothingItem) : List String :=
  items.foldl (fun acc i => dedup_append acc i.category) []

/-- The `all_style_tags` aggregate. -/
def agg_style_tags (items : List ClothingItem) : List String :=
  items.foldl (fun acc i => i.style_tags.foldl dedup_append acc) []

/-- The `all_fits` aggregate; `if item.fit:` admits only non-None,
non-empty fits. -/
def agg_fits (items : List ClothingItem) : List String :=
  items.foldl
    (fun acc i =>
      match i.fit with
      | some f => if f = "" then acc else dedup_append acc f
      | none => acc)
    []

/-- The `prices` list of `build_brand_profiles`; `if item.price_usd:`
admits only non-None, non-zero prices. -/
def truthy_prices (items : List ClothingItem) : List ℚ :=
  items.filterMap
    (fun i =>
      match i.price_usd with
      | some p => if p = 0 then none else some p
      | none => none)

/-- Written from the claim: the list of all non-null `price_usd` values
(zero included), for comparison with what the code actually averages. -/
def nonnull_prices (items : List ClothingItem) : List ℚ :=
  items.filterMap (fun i => i.price_usd)

/-- The price-range bucketing of `build_brand_profiles`: average of the
collected prices; > 500 luxury, > 200 premium, < 50 budget, otherwise mid
(also mid when no price was collected). -/
def price_range_of (prices : List ℚ) : String :=
  if prices = [] then "mid"
  else if prices.sum / (prices.length : ℚ) > 500 then "luxury"
  else if prices.sum / (prices.length : ℚ) > 200 then "premium"
  else if prices.sum / (prices.length : ℚ) < 50 then "budget"
  else "mid"

/-- The Brand record constructed for one brand group in
`build_brand_profiles` (timestamps are not modelled). -/
def synthesize_brand (brand_name : String) (items : List ClothingItem) : Brand :=
  { id := "brand_" ++ ((lowerStr brand_name).replace " " "_")
    name := brand_name
    description := brand_name ++ " brand profile generated from "
      ++ toString items.length ++ " items."
    aesthetics := (agg_style_tags items).take 10
    typical_fits := (agg_fits items).take 5
    price_range := price_range_of (truthy_prices items)
    origin_country := none
    signature_items := (agg_categories items).take 5
    similar_brands := []
    source_url := none
    source_type := "manual"
    created_at := "" }

/-- Embedding of `DataPipelineOrchestrator.build_brand_profiles`: iterate
the brand groups, skip names already in the brand collection, admit the
synthesized Brand through `add_brand`. -/
def build_brand_profiles (s : OrchState) : OrchState :=
  (group_by_brand s.items).foldl
    (fun st kv =>
      if kv.1 ∈ st.brands.map Brand.name then st
      else (add_brand st (synthesize_brand kv.1 kv.2)).2)
    s

/-- C2 (code bug): an item ingested through `add_item` puts its brand name
into `discovered_brands`, and `add_brand` rejects any brand whose name is
in `discovered_brands` — so every brand synthesized by
`build_brand_profiles` for a freshly ingested item is silently dropped and
the Brand collection stays empty, although "Acme" is absent from it. -/
theorem build_brand_profiles_drop_bug :
    ((add_item initialState itemAcme).1 = true) ∧
    (add_item initialState itemAcme).2.brands = [] ∧
    (build_brand_profiles (add_item initialState itemAcme).2).brands = [] ∧
    (add_brand (add_item initialState itemAcme).2
        (synthesize_brand "Acme" [itemAcme])).1 = false := by
  refine ⟨by decide, by decide, ?_, by decide⟩
  decide

/-- An item with price 0.0 (non-null but falsy in Python). -/
def itemZedFree : ClothingItem :=
  { id := "z0"
    name := "Promo Cap"
    brand := "Zed"
    category := "hat"
    description := "giveaway"
    fit := none
    style_tags := []
    colors := []
    materials := []
    source_url := none
    source_type := "scraped"
    price_usd := some 0
    created_at := "" }

/-- An item priced at 600 USD. -/
def itemZed600 : ClothingItem :=
  { id := "z1"
    name := "Wool Coat"
    brand := "Zed"
    category := "jacket"
    description := "heavy coat"
    fit := none
    style_tags := []
    colors := []
    materials := []
    source_url := none
    source_type := "scraped"
    price_usd := some 600
    created_at := "" }

/-- C6 counterexample: for items priced 0 and 600, the non-null prices are
[0, 600] with average 300, which the claimed rule buckets as "premium";
but `if item.price_usd:` drops the zero price, so the code averages [600]
and buckets the synthesized brand as "luxury". -/
theorem price_bucket_counterexample :
    (synthesize_brand "Zed" [itemZedFree, itemZed600]).price_range = "luxury" ∧
    nonnull_prices [itemZedFree, itemZed600] = [0, 600] ∧
    price_range_of (nonnull_prices [itemZedFree, itemZed600]) = "premium" ∧
    "luxury" ≠ "premium" := by
  have h1 : truthy_prices [itemZedFree, itemZed600] = [600] := by
    norm_num [truthy_prices, itemZedFree, itemZed600, List.filterMap_cons]
  have h2 : price_range_of [600] = "luxury" := by
    unfold price_range_of
    rw [if_neg (by simp : ¬([600] : List ℚ) = [])]
    norm_num
  have h3 : nonnull_prices [itemZedFree, itemZed600] = [0, 600] := by
    norm_num [nonnull_prices, itemZedFree, itemZed600, List.filterMap_cons]
  have h4 : price_range_of [0, 600] = "premium" := by
    unfold price_range_of
    rw [if_neg (by simp : ¬([0, 600] : List ℚ) = [])]
    norm_num
  refine ⟨?_, h3, by rw [h3]; exact h4, by decide⟩
  show price_range_of (truthy_prices [itemZedFree, itemZed600]) = "luxury"
  rw [h1, h2]

/-- C6 amended: the synthesized price_range is computed from the average
of the non-null *and non-zero* `price_usd` values; on that average the
boundaries are exactly as claimed: > 500 luxury, exactly 500 premium,
(200, 500] premium, exactly 200 mid, exactly 50 mid, < 50 budget,
[50, 200] mid, and no collected prices gives mid. -/
theorem price_bucket_amended (name : String) (items : List ClothingItem)
    (ps : List ℚ) (a : ℚ) (hp : truthy_prices items = ps) :
    (synthesize_brand name items).price_range = price_range_of ps ∧
    (ps = [] → price_range_of ps = "mid") ∧
    (ps ≠ [] → ps.sum / (ps.length : ℚ) = a →
      ((500 < a → price_range_of ps = "luxury") ∧
       (a = 500 → price_range_of ps = "premium") ∧
       (200 < a → a ≤ 500 → price_range_of ps = "premium") ∧
       (a = 200 → price_range_of ps = "mid") ∧
       (a = 50 → price_range_of ps = "mid") ∧
       (a < 50 → price_range_of ps = "budget") ∧
       (50 ≤ a → a ≤ 200 → price_range_of ps = "mid"))) := by
  refine ⟨by simp [synthesize_brand, hp], ?_, ?_⟩
  · intro h
    simp [price_range_of, h]
  · intro hne ha
    unfold price_range_of
    rw [if_neg hne, ha]
    refine ⟨?_, ?_, ?_, ?_, ?_, ?_, ?_⟩
    · intro h
      rw [if_pos h]
    · intro h
      subst h
      norm_num
    · intro h1 h2
      rw [if_neg (not_lt.mpr h2), if_pos h1]
    · intro h
      subst h
      norm_num
    · intro h
      subst h
      norm_num
    · intro h
      rw [if_neg (not_lt.mpr (by linarith)), if_neg (not_lt.mpr (by linarith)), if_pos h]
    · intro h1 h2
      rw [if_neg (not_lt.mpr (by linarith)), if_neg (not_lt.mpr h2),
        if_neg (not_lt.mpr h1)]

theorem price_bucket_amended_witness :
    (truthy_prices ([] : List ClothingItem) = ([] : List ℚ)) ∧
    ((synthesize_brand "W" ([] : List ClothingItem)).price_range
        = price_range_of ([] : List ℚ) ∧
     (([] : List ℚ) = [] → price_range_of ([] : List ℚ) = "mid") ∧
     (([] : List ℚ) ≠ [] → ([] : List ℚ).sum / ((([] : List ℚ).length : Nat) : ℚ) = 0 →
       ((500 < (0 : ℚ) → price_range_of ([] : List ℚ) = "luxury") ∧
        ((0 : ℚ) = 500 → price_range_of ([] : List ℚ) = "premium") ∧
        (200 < (0 : ℚ) → (0 : ℚ) ≤ 500 → price_range_of ([] : List ℚ) = "premium") ∧
        ((0 : ℚ) = 200 → price_range_of ([] : List ℚ) = "mid") ∧
        ((0 : ℚ) = 50 → price_range_of ([] : List ℚ) = "mid") ∧
        ((0 : ℚ) < 50 → price_range_of ([] : List ℚ) = "budget") ∧
        (50 ≤ (0 : ℚ) → (0 : ℚ) ≤ 200 → price_range_of ([] : List ℚ) = "mid")))) :=
  ⟨rfl, price_bucket_amended "W" [] [] 0 rfl⟩

/-! ### Gap filler (src/scrapers/orchestrator.py)

`fill_brand_gaps_ebay` counts items per brand once, before any fetch; for
each brand of the target list below the threshold it issues exactly one
`search_brand` fetch for exactly the missing count and admits the results
through `add_item`; brands at or above the threshold are skipped.  The
fetch provider is abstracted as a function; per-brand exceptions are
caught in the code, so the model is total and a short fetch simply adds
fewer items. -/

/-- The `brand_counts` dict computed before the gap-fill loop. -/
def brand_counts (items : List ClothingItem) : List (String × Nat) :=
  items.foldl (fun acc i => dictSet acc i.brand (dictGet acc i.brand + 1)) []

/-- Embedding of `DataPipelineOrchestrator.fill_brand_gaps_ebay`: returns
the final state together with the request log — one `(brand, max_results)`
entry per issued fetch.  `brand_counts s.items` is the count taken on the
pre-loop state, exactly as in the code. -/
def fill_brand_gaps_ebay (fetch : String → Nat → List ClothingItem)
    (brand_list : List String) (min_items : Nat) (s : OrchState) :
    OrchState × List (String × Nat) :=
  brand_list.foldl
    (fun acc b =>
      if dictGet (brand_counts s.items) b < min_items then
        ((fetch b (min_items - dictGet (brand_counts s.items) b)).foldl
            (fun st it => (add_item st it).2) acc.1,
         acc.2 ++ [(b, min_items - dictGet (brand_counts s.items) b)])
      else acc)
    (s, [])

theorem dictGet_counts_fold (items : List ClothingItem) (b : String) :
    ∀ acc, dictGet (items.foldl
        (fun acc i => dictSet acc i.brand (dictGet acc i.brand + 1)) acc) b
      = dictGet acc b + (items.filter (fun i => i.brand == b)).length := by
  induction items with
  | nil => intro acc; simp
  | cons i t ih =>
    intro acc
    simp only [List.foldl_cons, List.filter_cons]
    by_cases h : i.brand = b
    · rw [ih, h, dictGet_dictSet_self]
      simp only [beq_self_eq_true, if_true, List.length_cons]
      omega
    · have hb : (i.brand == b) = false := by simp [h]
      rw [ih, dictGet_dictSet_other _ _ _ _ (fun hh => h hh.symm)]
      simp [hb]

theorem fill_gaps_foldl_log (fetch : String → Nat → List ClothingItem)
    (counts : List (String × Nat)) (min_items : Nat) (l : List String) :
    ∀ (init : OrchState × List (String × Nat)),
      (l.foldl
        (fun acc b =>
          if dictGet counts b < min_items then
            ((fetch b (min_items - dictGet counts b)).foldl
                (fun st it => (add_item st it).2) acc.1,
             acc.2 ++ [(b, min_items - dictGet counts b)])
          else acc)
        init).2
      = init.2 ++ l.filterMap
          (fun x => if dictGet counts x < min_items
            then some (x, min_items - dictGet counts x) else none) := by
  induction l with
  | nil => intro init; simp
  | cons b t ih =>
    intro init
    simp only [List.foldl_cons, List.filterMap_cons]
    by_cases h : dictGet counts b < min_items
    · rw [if_pos h, if_pos h, ih]
      simp
    · rw [if_neg h, if_neg h, ih]

theorem filter_filterMap_log (counts : List (String × Nat)) (min_items : Nat)
    (l : List String) (b : String) :
    l.Nodup → b ∈ l →
    (l.filterMap (fun x => if dictGet counts x < min_items
        then some (x, min_items - dictGet counts x) else none)).filter
      (fun r => r.1 == b)
    = if dictGet counts b < min_items
      then [(b, min_items - dictGet counts b)] else [] := by
  induction l with
  | nil =>
    intro _ hb
    simp at hb
  | cons x t ih =>
    intro hnd hb
    rcases List.mem_cons.mp hb with hbx | hbt
    · subst hbx
      have hnotin : b ∉ t := (List.nodup_cons.mp hnd).1
      have htail : (t.filterMap (fun y => if dictGet counts y < min_items
          then some (y, min_items - dictGet counts y) else none)).filter
            (fun r => r.1 == b) = [] := by
        rw [List.filter_eq_nil_iff]
        intro r hr
        obtain ⟨y, hy, hfy⟩ := List.mem_filterMap.mp hr
        by_cases hc : dictGet counts y < min_items
        · rw [if_pos hc] at hfy
          have hry : r.1 = y := by
            cases hfy
            rfl
          simp only [hry]
          simp only [beq_iff_eq]
          intro heq
          exact hnotin (heq ▸ hy)
        · rw [if_neg hc] at hfy
          simp at hfy
      simp only [List.filterMap_cons]
      by_cases hc : dictGet counts b < min_items
      · rw [if_pos hc, if_pos hc]
        simp only [List.filter_cons]
        rw [show ((b, min_items - dictGet counts b).1 == b) = true by simp]
        simp [htail]
      · rw [if_neg hc, if_neg hc]
        exact htail
    · have hxb : x ≠ b := by
        intro h
        exact (List.nodup_cons.mp hnd).1 (by rw [h]; exact hbt)
      have ih2 := ih (List.nodup_cons.mp hnd).2 hbt
      simp only [List.filterMap_cons]
      by_cases hc : dictGet counts x < min_items
      · rw [if_pos hc]
        simp only [List.filter_cons]
        rw [show ((x, min_items - dictGet counts x).1 == b) = false by simp [hxb]]
        exact ih2
      · rw [if_neg hc]
        exact ih2

/-- C5: the per-brand item count is taken once, on the pre-loop state;
every brand of the (duplicate-free) target list with fewer than
`min_items` items gets exactly one fetch requesting exactly the missing
count — recorded once in the request log — while brands at or above the
threshold get no fetch at all; the default target list is all discovered
brand names.  Fetched items are admitted through `add_item`; a fetch
returning fewer items than requested raises nothing (the model is total,
matching the per-brand try/except). -/
theorem fill_brand_gaps_exactness (fetch : String → Nat → List ClothingItem)
    (brand_list : List String) (min_items : Nat) (s : OrchState) (b : String)
    (hnd : brand_list.Nodup) (hb : b ∈ brand_list) :
    (s.discovered_brands.toList.Nodup ∧
      ∀ x, x ∈ s.discovered_brands.toList ↔ x ∈ s.discovered_brands) ∧
    (((s.items.filter (fun i => i.brand == b)).length < min_items →
      (fill_brand_gaps_ebay fetch brand_list min_items s).2.filter (fun r => r.1 == b)
        = [(b, min_items - (s.items.filter (fun i => i.brand == b)).length)]) ∧
     (min_items ≤ (s.items.filter (fun i => i.brand == b)).length →
      (fill_brand_gaps_ebay fetch brand_list min_items s).2.filter (fun r => r.1 == b)
        = [])) := by
  have hcount : dictGet (brand_counts s.items) b
      = (s.items.filter (fun i => i.brand == b)).length := by
    have h := dictGet_counts_fold s.items b []
    simpa [brand_counts, dictGet] using h
  have hlog : (fill_brand_gaps_ebay fetch brand_list min_items s).2
      = brand_list.filterMap
          (fun x => if dictGet (brand_counts s.items) x < min_items
            then some (x, min_items - dictGet (brand_counts s.items) x) else none) := by
    unfold fill_brand_gaps_ebay
    simpa using fill_gaps_foldl_log fetch (brand_counts s.items) min_items brand_list (s, [])
  refine ⟨⟨Finset.nodup_toList _, fun x => Finset.mem_toList⟩, ?_, ?_⟩
  · intro h
    rw [hlog, filter_filterMap_log _ _ _ _ hnd hb, hcount, if_pos h]
  · intro h
    rw [hlog, filter_filterMap_log _ _ _ _ hnd hb, hcount, if_neg (not_lt.mpr h)]

theorem fill_brand_gaps_exactness_witness :
    ((["Acme", "Zed"] : List String).Nodup ∧ "Acme" ∈ (["Acme", "Zed"] : List String)) ∧
    (((add_item initialState itemAcme).2.discovered_brands.toList.Nodup ∧
      ∀ x, x ∈ (add_item initialState itemAcme).2.discovered_brands.toList
        ↔ x ∈ (add_item initialState itemAcme).2.discovered_brands) ∧
     ((((add_item initialState itemAcme).2.items.filter
          (fun i => i.brand == "Acme")).length < 3 →
        (fill_brand_gaps_ebay (fun _ _ => []) ["Acme", "Zed"] 3
            (add_item initialState itemAcme).2).2.filter (fun r => r.1 == "Acme")
          = [("Acme", 3 - ((add_item initialState itemAcme).2.items.filter
              (fun i => i.brand == "Acme")).length)]) ∧
      (3 ≤ ((add_item initialState itemAcme).2.items.filter
          (fun i => i.brand == "Acme")).length →
        (fill_brand_gaps_ebay (fun _ _ => []) ["Acme", "Zed"] 3
            (add_item initialState itemAcme).2).2.filter (fun r => r.1 == "Acme")
          = []))) :=
  ⟨⟨by decide, by decide⟩,
   fill_brand_gaps_exactness (fun _ _ => []) ["Acme", "Zed"] 3
     (add_item initialState itemAcme).2 "Acme" (by decide) (by decide)⟩
